import Mathlib

/-!
Verification of the contensis-forms client-side form state engine.

The definitions below are a shallow embedding of the TypeScript sources
`packages/react/src/models/api.ts` (data model and the form state reducer)
and `packages/react/src/state/fields.ts` (field derivation).  Pagination
helpers (`state/shared.ts`), the validation function (`state/validation.ts`),
the localisation table and the local-storage substrate are external to the
provided sources; they are modelled from the specification and are marked as
such in their doc comments.

JavaScript dictionaries (`Dictionary<T>` objects keyed by field id) are
modelled as association lists with first-match lookup; the object-spread
update `{...d, [k]: v}` replaces the entry in place when the key exists and
appends it otherwise, which is what `dset` does.  JavaScript truthiness is
made explicit at each use site (empty strings are falsy, arrays and objects
are truthy even when empty).
-/

namespace ContensisForms

/-! ## Dictionaries keyed by field id -/

/-- A JavaScript object used as a string-keyed dictionary: an association
list, looked up by first match. -/
abbrev Dict (α : Type) : Type := List (String × α)

/-- Property lookup `d[k]`: `none` models JavaScript `undefined`. -/
def dget {α : Type} (d : Dict α) (k : String) : Option α :=
  match d with
  | [] => none
  | (k', v) :: rest => if k' = k then some v else dget rest k

/-- The key list `Object.keys(d)`. -/
def keysOf {α : Type} (d : Dict α) : List String :=
  d.map Prod.fst

/-- Membership of a string in a list of strings, as a boolean. -/
def containsS (l : List String) (k : String) : Bool :=
  l.any (fun x => decide (x = k))

/-- Object-spread update `{...d, [k]: v}`: replaces the entry in place when
the key is present (preserving key order), appends it otherwise.  (This
replaces the first occurrence; the dictionaries the engine builds have
distinct keys, and lookup is first-match, so this coincides with object
spread.) -/
def dset {α : Type} (d : Dict α) (k : String) (v : α) : Dict α :=
  match d with
  | [] => [(k, v)]
  | (k', v') :: rest => if k' = k then (k, v) :: rest else (k', v') :: dset rest k v

/-- The key sets of `d` and `ids` coincide (as sets). -/
def sameKeys {α : Type} (d : Dict α) (ids : List String) : Bool :=
  (keysOf d).all (fun k => containsS ids k) && ids.all (fun k => containsS (keysOf d) k)

/-! ## Data model (models/api.ts) -/

/-- A runtime form value.  The TypeScript sources type values as `unknown`;
the values actually produced and consumed by the engine are JSON-like:
null/undefined, booleans, numbers, strings and string arrays.  Numbers are
modelled as integers (the engine never computes with them; `decimalPlaces`
of an integer is zero). -/
inductive Value where
  | null
  | bool (b : Bool)
  | num (n : Int)
  | str (s : String)
  | arr (xs : List String)
deriving DecidableEq

inductive FieldDataType where
  | boolean | dateTime | decimal | integer | string | stringArray
deriving DecidableEq

inductive FieldDataFormat where
  | email | phone | reference | time | url
deriving DecidableEq

/-- `FieldEditorId`; `listDropdown` stands for the source's `'list-dropdown'`. -/
inductive FieldEditorId where
  | datetime | date | decimal | integer | listDropdown | list | multiline | text
deriving DecidableEq

/-- The resolved editor type (models, referenced by state/fields.ts). -/
inductive FieldEditorType where
  | checkbox | date | datetime | decimal | integer | text | radio | multiselect
  | select | multiline | email | tel | reference | time | url
deriving DecidableEq

structure FieldValidation where
  message : Option String := none
deriving DecidableEq

structure FieldValidationWithValue (T : Type) where
  message : Option String := none
  value : T
deriving DecidableEq

/-- `FieldValidation & AllowedValues`: labeled values are (value, label) pairs. -/
structure AllowedValuesRule where
  message : Option String := none
  values : Option (List String) := none
  labeledValues : Option (List (String × String)) := none
deriving DecidableEq

structure FieldValidations where
  required : Option FieldValidation := none
  min : Option (FieldValidationWithValue Int) := none
  max : Option (FieldValidationWithValue Int) := none
  minLength : Option (FieldValidationWithValue Int) := none
  maxLength : Option (FieldValidationWithValue Int) := none
  minCount : Option (FieldValidationWithValue Int) := none
  maxCount : Option (FieldValidationWithValue Int) := none
  regex : Option (FieldValidationWithValue String) := none
  allowedValue : Option (FieldValidationWithValue Value) := none
  allowedValues : Option AllowedValuesRule := none
  pastDateTime : Option FieldValidation := none
  decimalPlaces : Option (FieldValidationWithValue Int) := none
deriving DecidableEq

structure FieldEditorProperties where
  placeholderText : Option String := none
deriving DecidableEq

structure FieldEditor where
  id : Option FieldEditorId := none
  properties : Option FieldEditorProperties := none
deriving DecidableEq

structure Field where
  id : String
  name : String := ""
  dataType : FieldDataType
  dataFormat : Option FieldDataFormat := none
  default : Option Value := none
  groupId : String
  validations : Option FieldValidations := none
  editor : Option FieldEditor := none
deriving DecidableEq

structure Group where
  id : String
  name : String := ""
deriving DecidableEq

/-- `FormContentType`; the `properties` and `version` members (captcha,
confirmation rules, version marker) are not consumed by the reducer logic
under verification and are omitted. -/
structure ContentType where
  id : String
  name : String := ""
  description : String := ""
  fields : List Field
  groups : Option (List Group) := none
  language : String := ""
deriving DecidableEq

/-! ## Field derivation (state/fields.ts) -/

/-- `DEFAULT_DATA_TYPE_EDITOR_TYPES`. -/
def dataTypeEditorType : FieldDataType → FieldEditorType
  | .boolean => .checkbox
  | .dateTime => .date
  | .decimal => .decimal
  | .integer => .integer
  | .string => .text
  | .stringArray => .radio

/-- `DEFAULT_DATA_FORMAT_EDITOR_TYPES`. -/
def dataFormatEditorType : FieldDataFormat → FieldEditorType
  | .email => .email
  | .phone => .tel
  | .reference => .reference
  | .time => .time
  | .url => .url

/-- `DEFAULT_EDITOR_ID_EDITOR_TYPES`. -/
def editorIdEditorType : FieldEditorId → FieldEditorType
  | .date => .date
  | .datetime => .datetime
  | .decimal => .decimal
  | .integer => .integer
  | .list => .radio
  | .listDropdown => .select
  | .multiline => .multiline
  | .text => .text

/-- `getFieldEditorType`: explicit editor id, then data format, then
allowed-values defaulting (`multiselect` for `stringArray`, else `radio`),
then the data-type default.  The source's final `|| 'text'` fallback is
unreachable because the data-type table is total.  Truthiness notes: an
empty `values`/`labeledValues` array is truthy in JavaScript, so its mere
presence selects the allowed-values branch. -/
def getFieldEditorType (field : Field) : FieldEditorType :=
  let et0 : Option FieldEditorType := (field.editor.bind (fun e => e.id)).map editorIdEditorType
  let et1 : Option FieldEditorType :=
    match et0 with
    | some t => some t
    | none => field.dataFormat.map dataFormatEditorType
  let et2 : Option FieldEditorType :=
    match et1 with
    | some t => some t
    | none =>
      let av := field.validations.bind (fun v => v.allowedValues)
      if ((av.bind (fun a => a.values)).isSome || (av.bind (fun a => a.labeledValues)).isSome) then
        some (if field.dataType = FieldDataType.stringArray then .multiselect else .radio)
      else none
  et2.getD (dataTypeEditorType field.dataType)

/-- `EMPTY_FIELD_VALUES` / `getEmptyFieldValue`. -/
def getEmptyFieldValue (field : Field) : Value :=
  match field.dataType with
  | .boolean => .bool false
  | .dateTime => .null
  | .decimal => .null
  | .integer => .null
  | .string => .str ""
  | .stringArray => .null

/-- Modelled from the spec: the localisation string table
(`state/localisations.ts`, not part of the provided sources) supplies the
`pleaseSelect` placeholder label; its exact text is immaterial here. -/
def pleaseSelect : String := "Please select"

/-- The synthetic-empty-option label: `placeholderText || pleaseSelect`
(the empty string is falsy). -/
def placeholderLabel (field : Field) : String :=
  match (field.editor.bind (fun e => e.properties)).bind (fun p => p.placeholderText) with
  | some s => if s = "" then pleaseSelect else s
  | none => pleaseSelect

structure FormFieldOption where
  key : String
  htmlId : String
  value : String
  label : String
deriving DecidableEq

/-- The `(value, label)` pairs derived from the allowed-values rule:
`labeledValues` preferred (even when the array is empty, which is truthy),
else bare `values` paired with themselves. -/
def optionPairs (field : Field) : Option (List (String × String)) :=
  let av := field.validations.bind (fun v => v.allowedValues)
  match av.bind (fun a => a.labeledValues) with
  | some lvs => some lvs
  | none => (av.bind (fun a => a.values)).map (fun vs => vs.map (fun v => (v, v)))

/-- One rendered option, from an (index, (value, label)) pair. -/
def optionOf (htmlId : String) (p : Nat × (String × String)) : FormFieldOption :=
  { key := toString p.1
    htmlId := htmlId ++ "-option-" ++ toString p.1
    value := p.2.1
    label := p.2.2 }

/-- The synthetic empty option prepended for `select` editors. -/
def emptySelectOption (field : Field) (htmlId : String) : FormFieldOption :=
  { key := ""
    htmlId := htmlId ++ "-option--1"
    value := ""
    label := placeholderLabel field }

/-- `getOptions`. -/
def getOptions (field : Field) (htmlId : String) : Option (List FormFieldOption) :=
  let options := (optionPairs field).map (fun ps => ps.enum.map (optionOf htmlId))
  if getFieldEditorType field = FieldEditorType.select then
    match (options.getD []).find? (fun o => decide (o.value = "")) with
    | some _ => options
    | none => some (emptySelectOption field htmlId :: options.getD [])
  else options

/-- The local wall-clock instant, as read off `new Date()`:
`getFullYear`/`getMonth` (zero-based)/`getDate`/`getHours`/`getMinutes`. -/
structure DateParts where
  year : Nat
  month : Nat
  day : Nat
  hours : Nat
  minutes : Nat
deriving DecidableEq

/-- `pad(n, length)`: prepend `length` zeroes and keep the last `length`
characters.  The source only ever calls it with the default length 2. -/
def pad (n : Nat) (length : Nat) : String :=
  let s := (String.mk (List.replicate length '0') ++ toString n).toList
  String.mk (s.drop (s.length - length))

/-- `toLocalIsoDate`. -/
def toLocalIsoDate (dt : DateParts) : String :=
  toString dt.year ++ "-" ++ pad (dt.month + 1) 2 ++ "-" ++ pad dt.day 2 ++ "T00:00"

/-- `toLocalIsoDateTime`. -/
def toLocalIsoDateTime (dt : DateParts) : String :=
  toString dt.year ++ "-" ++ pad (dt.month + 1) 2 ++ "-" ++ pad dt.day 2
    ++ "T" ++ pad dt.hours 2 ++ ":" ++ pad dt.minutes 2

/-- `toLocalIsoTime`. -/
def toLocalIsoTime (dt : DateParts) : String :=
  pad dt.hours 2 ++ ":" ++ pad dt.minutes 2

/-- `getDefaultValue`: the explicit default if present, else the empty
value; the string sentinel `"now()"` on a `dateTime` field resolves to the
current local date-time (editor type `datetime`) or date (any other editor
type), and on a `string` field with data format `time` to the current local
time.  `new Date()` is passed in explicitly as `now`. -/
def getDefaultValue (now : DateParts) (field : Field) : Value :=
  let defaultValue :=
    match field.default with
    | some d => d
    | none => getEmptyFieldValue field
  if field.dataType = FieldDataType.dateTime ∧ defaultValue = Value.str "now()" then
    if getFieldEditorType field = FieldEditorType.datetime then
      Value.str (toLocalIsoDateTime now)
    else
      Value.str (toLocalIsoDate now)
  else if field.dataType = FieldDataType.string ∧ field.dataFormat = some FieldDataFormat.time
      ∧ defaultValue = Value.str "now()" then
    Value.str (toLocalIsoTime now)
  else
    defaultValue

/-! ## Pagination helpers (state/shared.ts) -/

/-- The group (page) list of a possibly-absent form: `form?.groups || []`. -/
def groupsOf (form : Option ContentType) : List Group :=
  match form with
  | none => []
  | some f => f.groups.getD []

/-- First index in `gs` whose group id equals `pageId`, or `-1`. -/
def pageIndexAux (gs : List Group) (pageId : Option String) : Int :=
  match gs with
  | [] => -1
  | g :: rest =>
    if some g.id = pageId then 0
    else
      let r := pageIndexAux rest pageId
      if r < 0 then -1 else r + 1

/-- Modelled from the spec: `getPageIndex` (state/shared.ts, not part of the
provided sources) — the first matching index among the form's groups, or
`-1` when the form has no groups or the page is not found. -/
def getPageIndex (form : Option ContentType) (pageId : Option String) : Int :=
  pageIndexAux (groupsOf form) pageId

/-- Modelled from the spec: `getPageIdAt` — the group id at an index, or
absent when out of range or when there are no groups. -/
def getPageIdAt (form : Option ContentType) (index : Nat) : Option String :=
  ((groupsOf form).get? index).map (fun g => g.id)

/-- Modelled from the spec: `getNextPage` — the id of the group after the
current one, or absent at the boundary (or when the current page id does
not resolve to an index). -/
def getNextPage (form : Option ContentType) (pageId : Option String) : Option String :=
  let i := getPageIndex form pageId
  if 0 ≤ i then getPageIdAt form (i.toNat + 1) else none

/-- Modelled from the spec: `getPreviousPage` — the id of the group before
the current one, or absent at the boundary. -/
def getPreviousPage (form : Option ContentType) (pageId : Option String) : Option String :=
  let i := getPageIndex form pageId
  if 0 < i then getPageIdAt form (i.toNat - 1) else none

/-- Modelled from the spec: `getIsLastPage` — true when the page is the
final group, or when the form has no groups at all (single implicit page). -/
def getIsLastPage (form : Option ContentType) (pageId : Option String) : Bool :=
  match (groupsOf form).getLast? with
  | none => true
  | some g => decide (some g.id = pageId)

/-! ## Validation (state/validation.ts) -/

structure ValidationError where
  message : String
deriving DecidableEq

/-- The ambient collaborators of validation and default-value derivation:
the current wall-clock instant, and the regular-expression engine (an
external collaborator; the engine only ever asks whether a string matches a
pattern). -/
structure Env where
  now : DateParts
  regexMatch : String → String → Bool

/-- Whether a (possibly absent) value is empty per the per-dataType
definition of emptiness: absent, null, the empty string, or an empty
collection. -/
def isEmptyValue (v : Option Value) : Bool :=
  match v with
  | none => true
  | some .null => true
  | some (.str s) => decide (s = "")
  | some (.arr xs) => xs.isEmpty
  | some _ => false

/-- A constraint's user-facing message, falling back to a generic message
for its kind when none is supplied. -/
def msgOr (m : Option String) (fallback : String) : String :=
  m.getD fallback

/-- Modelled from the spec: `validate` (state/validation.ts, not part of the
provided sources).  Evaluates every constraint present in the field's
validation bundle against the value, independently and without
short-circuiting, and collects all violated constraints with their message.
Returns `none` when no constraint is violated (the source returns a falsy
result then: `api.ts` tests results with `!!errors[id]`, which would be
true of an empty array).  Numeric constraints apply to numeric values,
length constraints to strings, count constraints to arrays; `regex` is only
evaluated on non-empty string values; `pastDateTime` compares the value's
local ISO representation with the current instant; `decimalPlaces` never
fails here because numbers are modelled as integers.  The `language`
argument is only used for message localisation, an external collaborator. -/
def validate (env : Env) (v : Option Value) (field : Field) (language : String)
    : Option (List ValidationError) :=
  match field.validations with
  | none => none
  | some vs =>
    let errs : List ValidationError :=
      (match vs.required with
       | some r => if isEmptyValue v then [⟨msgOr r.message "required"⟩] else []
       | none => []) ++
      (match vs.min with
       | some r =>
         match v with
         | some (.num x) => if x < r.value then [⟨msgOr r.message "min"⟩] else []
         | _ => []
       | none => []) ++
      (match vs.max with
       | some r =>
         match v with
         | some (.num x) => if r.value < x then [⟨msgOr r.message "max"⟩] else []
         | _ => []
       | none => []) ++
      (match vs.minLength with
       | some r =>
         match v with
         | some (.str s) => if (s.length : Int) < r.value then [⟨msgOr r.message "minLength"⟩] else []
         | _ => []
       | none => []) ++
      (match vs.maxLength with
       | some r =>
         match v with
         | some (.str s) => if r.value < (s.length : Int) then [⟨msgOr r.message "maxLength"⟩] else []
         | _ => []
       | none => []) ++
      (match vs.minCount with
       | some r =>
         match v with
         | some (.arr xs) => if (xs.length : Int) < r.value then [⟨msgOr r.message "minCount"⟩] else []
         | _ => []
       | none => []) ++
      (match vs.maxCount with
       | some r =>
         match v with
         | some (.arr xs) => if r.value < (xs.length : Int) then [⟨msgOr r.message "maxCount"⟩] else []
         | _ => []
       | none => []) ++
      (match vs.regex with
       | some r =>
         if isEmptyValue v then []
         else
           match v with
           | some (.str s) => if env.regexMatch r.value s then [] else [⟨msgOr r.message "regex"⟩]
           | _ => []
       | none => []) ++
      (match vs.allowedValue with
       | some r => if v = some r.value then [] else [⟨msgOr r.message "allowedValue"⟩]
       | none => []) ++
      (match vs.allowedValues with
       | some r =>
         let allowed : List String :=
           match r.labeledValues with
           | some lvs => lvs.map (fun p => p.1)
           | none => r.values.getD []
         match v with
         | some (.str s) =>
           if containsS allowed s then [] else [⟨msgOr r.message "allowedValues"⟩]
         | some (.arr xs) =>
           if xs.all (fun x => containsS allowed x) then [] else [⟨msgOr r.message "allowedValues"⟩]
         | _ => []
       | none => []) ++
      (match vs.pastDateTime with
       | some r =>
         match v with
         | some (.str s) => if s < toLocalIsoDateTime env.now then [] else [⟨msgOr r.message "pastDateTime"⟩]
         | _ => []
       | none => []) ++
      (match vs.decimalPlaces with
       | some _ => []
       | none => [])
    if errs.isEmpty then none else some errs

/-! ## FormState and progress persistence (models/api.ts) -/

/-- The mutable runtime state (`FormState`).  `errors` maps a field id to
the result of `validate` (absent meaning no failures); `loadError` carries
an opaque rejection reason. -/
structure FormState where
  htmlId : String
  form : Option ContentType
  language : String
  currentPageId : Option String
  value : Dict Value
  defaultValue : Dict Value
  emptyValue : Dict Value
  inputValue : Dict Value
  errors : Dict (Option (List ValidationError))
  showErrors : Bool
  focussed : Option String
  loading : Bool
  loadError : Option String
  defaultPageTitle : String
deriving DecidableEq

/-- The serialised value entry of a persisted draft.  Modelled from the
spec: JSON serialisation is an external collaborator, so the stored string
is represented structurally — the empty string (falsy), a well-formed
serialisation of a value dictionary, or a string `JSON.parse` throws on. -/
inductive StoredJson where
  | empty
  | json (d : Dict Value)
  | malformed
deriving DecidableEq

/-- Modelled from the spec: the local key-value storage substrate
(`localStorage`).  The engine uses exactly two entries per form, keyed by
`contensis-form-(formId)-page` and `contensis-form-(formId)-value`; the key
derivation is injective in the form id, so storage is indexed by form id
directly. -/
structure Storage where
  page : String → Option String
  value : String → Option StoredJson

/-- JavaScript truthiness of a nullable string: null/undefined and the
empty string are falsy. -/
def truthyS (o : Option String) : Bool :=
  match o with
  | some s => decide (s ≠ "")
  | none => false

/-- `saveProgress`: guarded by `if (state.form?.id)` — a draft is written
only when a form is loaded and its id is truthy (non-empty); it records the
current page id (or the empty string when absent) and the serialised
committed value mapping, keyed by the form's id.  A JavaScript object is
always truthy, so the value entry is always the serialisation. -/
def saveProgress (state : FormState) (sto : Storage) : Storage :=
  match state.form with
  | some form =>
    if form.id = "" then sto
    else
      { page := fun i => if i = form.id then some (state.currentPageId.getD "") else sto.page i
        value := fun i => if i = form.id then some (StoredJson.json state.value) else sto.value i }
  | none => sto

structure Progress where
  page : String
  value : Dict Value
deriving DecidableEq

/-- `loadProgress`: reads the two entries for the form's id; both must be
present and truthy (non-empty) strings; a malformed value entry is
swallowed and treated as no draft. -/
def loadProgress (sto : Storage) (form : ContentType) : Option Progress :=
  match sto.page form.id, sto.value form.id with
  | some page, some jsonValue =>
    if page = "" then none
    else
      match jsonValue with
      | .empty => none
      | .json d => some { page := page, value := d }
      | .malformed => none
  | _, _ => none

/-! ## The form state reducer (models/api.ts) -/

/-- Modelled from the spec: `reduceFields` (state/shared.ts, not part of the
provided sources) — builds the dictionary keyed by field id whose entry for
each field is `fn field`. -/
def reduceFields {α : Type} (form : ContentType) (fn : Field → α) : Dict α :=
  form.fields.foldl (fun prev f => dset prev f.id (fn f)) []

/-- `getDefaultFormValue`. -/
def getDefaultFormValue (env : Env) (form : ContentType) : Dict Value :=
  reduceFields form (fun f => getDefaultValue env.now f)

/-- `getEmptyFormValue`. -/
def getEmptyFormValue (form : ContentType) : Dict Value :=
  reduceFields form (fun f => getEmptyFieldValue f)

/-- `currentPageHasErrors`: whether some field of the current page has a
truthy entry in `errors`. -/
def currentPageHasErrors (state : FormState) : Bool :=
  let currentPageFieldIds :=
    (((state.form.map (fun f => f.fields)).getD []).filter
      (fun f => decide (some f.groupId = state.currentPageId))).map (fun f => f.id)
  currentPageFieldIds.any (fun i => ((dget state.errors i).getD none).isSome)

/-- The draft-merge reduce inside `onSetForm`
(`Object.keys(value).reduce(...)`, starting from the freshly computed
default value map): for every key of the default map present in both the
draft's value mapping and the default map, take the draft's value. -/
def mergeProgress (defaultValue progressValue : Dict Value) : Dict Value :=
  (keysOf defaultValue).foldl
    (fun prev key =>
      match dget progressValue key, dget defaultValue key with
      | some pv, some _ => dset prev key pv
      | _, _ => prev)
    defaultValue

/-- Whether some entry of an errors dictionary is truthy:
`Object.keys(errors).some(key => !!errors[key])`. -/
def errorsAny (errors : Dict (Option (List ValidationError))) : Bool :=
  (keysOf errors).any (fun key => ((dget errors key).getD none).isSome)

/-- `onSetForm`. -/
def onSetForm (env : Env) (sto : Storage) (state : FormState) (form : ContentType) : FormState :=
  let firstPageId := getPageIdAt (some form) 0
  let defaultValue := getDefaultFormValue env form
  let emptyValue := getEmptyFormValue form
  let progress := loadProgress sto form
  let currentPageId :=
    match progress with
    | some p =>
      if (form.groups.getD []).any (fun g => decide (g.id = p.page)) then some p.page
      else firstPageId
    | none => firstPageId
  let value :=
    match progress with
    | some p => mergeProgress defaultValue p.value
    | none => defaultValue
  let errors := reduceFields form (fun f => validate env (dget value f.id) f state.language)
  let hasErrors := errorsAny errors
  { htmlId := state.htmlId
    form := some form
    language := state.language
    currentPageId := if hasErrors then firstPageId else currentPageId
    value := value
    defaultValue := defaultValue
    emptyValue := emptyValue
    inputValue := value
    errors := errors
    showErrors := false
    focussed := none
    loading := false
    loadError := none
    defaultPageTitle := state.defaultPageTitle }

/-- `onSetValue`: no-op when the field id is unknown; otherwise revalidates
just that field, updates `value` and `errors` for that key, and keeps
`showErrors` only while the current page still has an erroring field. -/
def onSetValue (env : Env) (state : FormState) (fieldId : String) (fieldValue : Value) : FormState :=
  match ((state.form.map (fun f => f.fields)).getD []).find? (fun f => decide (f.id = fieldId)) with
  | some field =>
    let fieldErrors := validate env (some fieldValue) field state.language
    let s1 : FormState :=
      { state with
        value := dset state.value fieldId fieldValue
        errors := dset state.errors fieldId fieldErrors }
    { s1 with showErrors := s1.showErrors && currentPageHasErrors s1 }
  | none => state

/-- `onSetInputValue`: no-op when the field id is unknown; otherwise
replaces only the transient display value for that field. -/
def onSetInputValue (state : FormState) (fieldId : String) (fieldInputValue : Value) : FormState :=
  match ((state.form.map (fun f => f.fields)).getD []).find? (fun f => decide (f.id = fieldId)) with
  | some _ =>
    { state with inputValue := dset state.inputValue fieldId fieldInputValue }
  | none => state

/-- `onSetFocussed`: setting focus records the given field id; clearing
only takes effect when the given id is the one currently focussed. -/
def onSetFocussed (state : FormState) (fieldId : String) (focussed : Bool) : FormState :=
  if focussed then
    { state with focussed := some fieldId }
  else if state.focussed = some fieldId then
    { state with focussed := none }
  else state

structure SubmitResult where
  canSave : Bool
  state : FormState
deriving DecidableEq

/-- `onSubmit`.  The advance branch is guarded by the truthiness check
`if (nextPage)`: an absent next page or one whose group id is the empty
string falls through to the last-page test.  (`addToHistory` is a
browser-history side effect with no bearing on `FormState`.) -/
def onSubmit (state : FormState) : SubmitResult :=
  if !currentPageHasErrors state then
    let isLastPage := getIsLastPage state.form state.currentPageId
    let nextPage := getNextPage state.form state.currentPageId
    if truthyS nextPage then
      { canSave := false
        state := { state with showErrors := false, currentPageId := nextPage } }
    else if isLastPage then
      { canSave := true, state := { state with showErrors := false } }
    else
      { canSave := false, state := { state with showErrors := true } }
  else
    { canSave := false, state := { state with showErrors := true } }

/-- `onPreviousPage`; the navigation is guarded by the truthiness check
`if (previousPage)`, so an absent previous page or one whose group id is
the empty string is a no-op. -/
def onPreviousPage (state : FormState) : FormState :=
  let previousPage := getPreviousPage state.form state.currentPageId
  if truthyS previousPage then
    { state with showErrors := false, currentPageId := previousPage }
  else state

/-- The `trigger` argument of `gotoPage`: a browser back/forward
(`'popstate'`) navigation, or an ordinary (programmatic) one. -/
inductive Trigger where
  | popstate
  | user
deriving DecidableEq

/-- `onGotoPage`.  An empty page id is falsy and resolves to index 0; the
history writes and the compensating `history.back()` are browser side
effects with no bearing on `FormState`. -/
def onGotoPage (state : FormState) (pageId : String) (trigger : Trigger) : FormState :=
  let currentPageIndex := getPageIndex state.form state.currentPageId
  let newPageIndex := if pageId = "" then (0 : Int) else getPageIndex state.form (some pageId)
  if 0 ≤ newPageIndex then
    if currentPageIndex < newPageIndex then
      if !currentPageHasErrors state then
        match getNextPage state.form state.currentPageId with
        | some nextPage =>
          if nextPage = pageId then
            { state with showErrors := false, currentPageId := some pageId }
          else state
        | none => state
      else
        { state with showErrors := true }
    else if newPageIndex < currentPageIndex then
      { state with
        showErrors := false
        currentPageId := if pageId = "" then getPageIdAt state.form newPageIndex.toNat else some pageId }
    else state
  else state

/-! ## Asynchronous form loading (`setForm` in createActions) -/

/-- The loader's closure state: the `FormState` in the store together with
the `loadingPromise` variable; promise identity is modelled by a numeric
token (each issued load carries a fresh token). -/
structure LoaderState where
  fs : FormState
  loadingPromise : Option Nat
deriving DecidableEq

/-- The externally observable loading events: `setForm` called with a ready
form, `setForm` called with a pending promise, and a pending promise's
resolution or rejection arriving. -/
inductive LoadEvent where
  | startSync (form : ContentType)
  | startAsync (tok : Nat)
  | resolve (tok : Nat) (form : ContentType)
  | reject (tok : Nat) (loadError : String)
deriving DecidableEq

/-- One step of `setForm`'s protocol, translated from the source: starting
an asynchronous load marks `loading` and records the new promise as
`loadingPromise`; a resolution or rejection applies its state update only
when its promise is (by identity) the last-issued one, but in either case
the callback then runs `loadingPromise = null` unconditionally. -/
def loadStep (env : Env) (sto : Storage) (ls : LoaderState) (e : LoadEvent) : LoaderState :=
  match e with
  | .startSync form =>
    { fs := onSetForm env sto ls.fs form, loadingPromise := none }
  | .startAsync tok =>
    { fs := { ls.fs with loading := true }, loadingPromise := some tok }
  | .resolve tok form =>
    { fs := if ls.loadingPromise = some tok then onSetForm env sto ls.fs form else ls.fs
      loadingPromise := none }
  | .reject tok loadError =>
    { fs :=
        if ls.loadingPromise = some tok then
          { ls.fs with loadError := some loadError, loading := false }
        else ls.fs
      loadingPromise := none }

/-- A run of loading events. -/
def loadRun (env : Env) (sto : Storage) (ls : LoaderState) (es : List LoadEvent) : LoaderState :=
  es.foldl (loadStep env sto) ls

/-- Modelled from the spec: the state seeded at store creation —
`htmlId`, `language` and the default page title, with nothing loaded. -/
def initialState (htmlId language defaultPageTitle : String) : FormState :=
  { htmlId := htmlId
    form := none
    language := language
    currentPageId := none
    value := []
    defaultValue := []
    emptyValue := []
    inputValue := []
    errors := []
    showErrors := false
    focussed := none
    loading := false
    loadError := none
    defaultPageTitle := defaultPageTitle }

/-! ## The key-set invariant -/

/-- The field ids of a form, in order. -/
def fieldIds (form : ContentType) : List String :=
  form.fields.map (fun f => f.id)

/-- The loaded-form invariant: `value`, `defaultValue`, `emptyValue`,
`inputValue` and `errors` all have exactly the form's field ids as their
key set. -/
def keyInv (state : FormState) (form : ContentType) : Bool :=
  sameKeys state.value (fieldIds form) && sameKeys state.defaultValue (fieldIds form)
    && sameKeys state.emptyValue (fieldIds form) && sameKeys state.inputValue (fieldIds form)
    && sameKeys state.errors (fieldIds form)

/-! ## Concrete fixtures used in witnesses and counterexamples -/

/-- A concrete local instant: 2024-05-07 09:05 (month is zero-based). -/
def now0 : DateParts := ⟨2024, 4, 7, 9, 5⟩

def env0 : Env := { now := now0, regexMatch := fun _ _ => true }

/-- Empty local storage. -/
def sto0 : Storage := { page := fun _ => none, value := fun _ => none }

/-- A required string field on page `p1`. -/
def fieldA : Field :=
  { id := "a", dataType := .string, groupId := "p1"
    validations := some { required := some {} } }

/-- An optional string field on page `p2`. -/
def fieldB : Field := { id := "b", dataType := .string, groupId := "p2" }

/-- An optional string field on page `p3`. -/
def fieldC : Field := { id := "c", dataType := .string, groupId := "p3" }

/-- A two-page form: required `a` on `p1`, optional `b` on `p2`. -/
def form2 : ContentType :=
  { id := "f", fields := [fieldA, fieldB]
    groups := some [⟨"p1", "Page 1"⟩, ⟨"p2", "Page 2"⟩] }

/-- A three-page form. -/
def form3 : ContentType :=
  { id := "f3", fields := [fieldA, fieldB, fieldC]
    groups := some [⟨"p1", ""⟩, ⟨"p2", ""⟩, ⟨"p3", ""⟩] }

/-- `form2` loaded, on page `p1`, with the required field `a` still empty
(so `a` has a validation error). -/
def stErr : FormState :=
  { htmlId := "h", form := some form2, language := "en", currentPageId := some "p1"
    value := [("a", .str ""), ("b", .str "")]
    defaultValue := [("a", .str ""), ("b", .str "")]
    emptyValue := [("a", .str ""), ("b", .str "")]
    inputValue := [("a", .str ""), ("b", .str "")]
    errors := [("a", some [⟨"required"⟩]), ("b", none)]
    showErrors := false, focussed := none, loading := false, loadError := none
    defaultPageTitle := "t" }

/-- `form2` loaded, on page `p1`, with `a` populated and no errors. -/
def stOk : FormState :=
  { stErr with value := [("a", Value.str "x"), ("b", .str "")]
               errors := [("a", none), ("b", none)] }

/-- `form2` loaded, on the last page `p2`, no errors. -/
def stLast : FormState := { stOk with currentPageId := some "p2" }

/-- `form3` loaded, on page `p1`, no errors. -/
def st3 : FormState :=
  { stOk with form := some form3
              value := [("a", Value.str "x"), ("b", .str ""), ("c", .str "")]
              errors := [("a", none), ("b", none), ("c", none)] }

/-- `form3` loaded, on page `p1`, with an error on `a`. -/
def st3e : FormState :=
  { st3 with errors := [("a", some [⟨"required"⟩]), ("b", none), ("c", none)] }

/-- Storage holding a draft for `form2`: page `p2`, `a` populated. -/
def stoDraftOk : Storage :=
  { page := fun i => if i = "f" then some "p2" else none
    value := fun i => if i = "f" then some (.json [("a", Value.str "x")]) else none }

/-- Storage holding a draft for `form2`: page `p2`, but `a` still empty, so
the merged value fails validation. -/
def stoDraftErr : Storage :=
  { page := fun i => if i = "f" then some "p2" else none
    value := fun i => if i = "f" then some (.json [("a", Value.str "")]) else none }

/-- Two loadable forms for the loading-protocol scenario. -/
def formA : ContentType := { id := "fa", fields := [] }

def formB : ContentType := { id := "fb", fields := [] }

/-- The loader's state right after store creation. -/
def ls0 : LoaderState := ⟨initialState "h" "en" "t", none⟩

/-- An integer field with explicit default 5. -/
def fInt5 : Field := { id := "i", dataType := .integer, groupId := "g", default := some (.num 5) }

/-- A decimal field with no default. -/
def fDecNo : Field := { id := "d", dataType := .decimal, groupId := "g" }

/-- A dateTime field defaulting to the `"now()"` sentinel (editor type
resolves to `date`). -/
def fDateNow : Field :=
  { id := "dt", dataType := .dateTime, groupId := "g", default := some (.str "now()") }

/-- A dateTime field with the `datetime` editor, defaulting to `"now()"`. -/
def fDateTimeNow : Field :=
  { id := "dtt", dataType := .dateTime, groupId := "g", default := some (.str "now()")
    editor := some { id := some .datetime } }

/-- A time-formatted string field defaulting to `"now()"`. -/
def fTimeNow : Field :=
  { id := "tm", dataType := .string, dataFormat := some .time, groupId := "g"
    default := some (.str "now()") }

/-- A dropdown field with labeled allowed values (none of them empty). -/
def fSelect : Field :=
  { id := "s", dataType := .string, groupId := "g"
    editor := some { id := some .listDropdown }
    validations := some { allowedValues := some { labeledValues := some [("v1", "Label 1")] } } }

/-- A dropdown field whose allowed values already include an empty value. -/
def fSelectEmptyVal : Field :=
  { id := "se", dataType := .string, groupId := "g"
    editor := some { id := some .listDropdown }
    validations := some { allowedValues := some { labeledValues := some [("", "None"), ("v1", "L")] } } }

/-- A dropdown field with no allowed-values constraint at all. -/
def fSelectNoAV : Field :=
  { id := "sn", dataType := .string, groupId := "g"
    editor := some { id := some .listDropdown } }

/-- A non-select field with bare enumerated values. -/
def fRadioVals : Field :=
  { id := "r", dataType := .string, groupId := "g"
    validations := some { allowedValues := some { values := some ["x", "y"] } } }

/-! ## Dictionary lemmas -/

theorem keysOf_nil {α : Type} : keysOf ([] : Dict α) = [] := rfl

theorem keysOf_cons {α : Type} (k : String) (v : α) (rest : Dict α) :
    keysOf ((k, v) :: rest) = k :: keysOf rest := rfl

theorem containsS_iff (l : List String) (k : String) : containsS l k = true ↔ k ∈ l := by
  simp only [containsS, List.any_eq_true, decide_eq_true_eq]
  constructor
  · rintro ⟨x, hx, rfl⟩; exact hx
  · intro h; exact ⟨k, h, rfl⟩

theorem mem_keysOf_iff_dget {α : Type} (d : Dict α) (k : String) :
    k ∈ keysOf d ↔ (dget d k).isSome = true := by
  induction d with
  | nil => simp [keysOf_nil, dget]
  | cons p rest ih =>
    obtain ⟨k', v⟩ := p
    by_cases h : k' = k
    · subst h; simp [keysOf_cons, dget]
    · simp only [keysOf_cons, List.mem_cons, dget, if_neg h]
      simp [Ne.symm h, ih]

theorem dget_dset_self {α : Type} (d : Dict α) (k : String) (v : α) :
    dget (dset d k v) k = some v := by
  induction d with
  | nil => simp [dset, dget]
  | cons p rest ih =>
    obtain ⟨k', v'⟩ := p
    by_cases h : k' = k
    · simp [dset, h, dget]
    · simp [dset, h, dget, ih]

theorem dget_dset_ne {α : Type} (d : Dict α) (k k' : String) (v : α) (h : k' ≠ k) :
    dget (dset d k v) k' = dget d k' := by
  induction d with
  | nil => simp [dset, dget, Ne.symm h]
  | cons p rest ih =>
    obtain ⟨k1, v1⟩ := p
    by_cases hk : k1 = k
    · subst hk
      simp [dset, dget, Ne.symm h, fun hh : k1 = k' => h hh.symm]
    · by_cases hk' : k1 = k'
      · subst hk'; simp [dset, h, hk, dget]
      · simp [dset, hk, dget, hk', ih]

theorem keysOf_dset_of_mem {α : Type} (d : Dict α) (k : String) (v : α)
    (h : k ∈ keysOf d) : keysOf (dset d k v) = keysOf d := by
  induction d with
  | nil => simp [keysOf_nil] at h
  | cons p rest ih =>
    obtain ⟨k1, v1⟩ := p
    by_cases hk : k1 = k
    · subst hk; simp [dset, keysOf_cons]
    · simp only [keysOf_cons, List.mem_cons] at h
      rcases h with h | h
      · exact absurd h.symm hk
      · simp [dset, hk, keysOf_cons, ih h]

theorem keysOf_dset_of_not_mem {α : Type} (d : Dict α) (k : String) (v : α)
    (h : k ∉ keysOf d) : keysOf (dset d k v) = keysOf d ++ [k] := by
  induction d with
  | nil => simp [dset, keysOf_cons, keysOf_nil]
  | cons p rest ih =>
    obtain ⟨k1, v1⟩ := p
    simp only [keysOf_cons, List.mem_cons] at h
    push_neg at h
    simp [dset, Ne.symm h.1, keysOf_cons, ih h.2]

theorem mem_keysOf_dset {α : Type} (d : Dict α) (k k' : String) (v : α) :
    k' ∈ keysOf (dset d k v) ↔ k' ∈ keysOf d ∨ k' = k := by
  by_cases h : k ∈ keysOf d
  · rw [keysOf_dset_of_mem d k v h]
    constructor
    · exact Or.inl
    · rintro (hh | rfl)
      · exact hh
      · exact h
  · rw [keysOf_dset_of_not_mem d k v h]
    simp

theorem sameKeys_iff {α : Type} (d : Dict α) (ids : List String) :
    sameKeys d ids = true ↔ ((∀ k ∈ keysOf d, k ∈ ids) ∧ (∀ k ∈ ids, k ∈ keysOf d)) := by
  simp [sameKeys, List.all_eq_true, containsS_iff]

theorem sameKeys_dset {α : Type} (d : Dict α) (ids : List String) (k : String) (v : α)
    (hd : sameKeys d ids = true) (hk : k ∈ ids) : sameKeys (dset d k v) ids = true := by
  rw [sameKeys_iff] at hd ⊢
  constructor
  · intro k' hk'
    rw [mem_keysOf_dset] at hk'
    rcases hk' with h | h
    · exact hd.1 k' h
    · subst h; exact hk
  · intro k' hk'
    rw [mem_keysOf_dset]
    exact Or.inl (hd.2 k' hk')

theorem sameKeys_of_mem_iff {α : Type} (d : Dict α) (ids : List String)
    (h : ∀ k, k ∈ keysOf d ↔ k ∈ ids) : sameKeys d ids = true := by
  rw [sameKeys_iff]
  exact ⟨fun k hk => (h k).1 hk, fun k hk => (h k).2 hk⟩

/-! ## Draft-merge lemmas -/

theorem mergeProgress_fold_get (dv pv : Dict Value) (ks : List String) (acc : Dict Value)
    (k : String) :
    dget (ks.foldl
      (fun prev key =>
        match dget pv key, dget dv key with
        | some x, some _ => dset prev key x
        | _, _ => prev)
      acc) k
      = if k ∈ ks ∧ (dget pv k).isSome = true ∧ (dget dv k).isSome = true
        then dget pv k else dget acc k := by
  induction ks generalizing acc with
  | nil => simp
  | cons key ks ih =>
    rw [List.foldl_cons, ih]
    by_cases hks : k ∈ ks ∧ (dget pv k).isSome = true ∧ (dget dv k).isSome = true
    · rw [if_pos hks, if_pos ⟨List.mem_cons_of_mem key hks.1, hks.2⟩]
    · rw [if_neg hks]
      by_cases hkey : k = key ∧ (dget pv k).isSome = true ∧ (dget dv k).isSome = true
      · obtain ⟨rfl, hpv, hdv⟩ := hkey
        rw [if_pos ⟨List.mem_cons_self _ _, hpv, hdv⟩]
        obtain ⟨x, hx⟩ := Option.isSome_iff_exists.1 hpv
        obtain ⟨y, hy⟩ := Option.isSome_iff_exists.1 hdv
        rw [hx, hy]
        simp only []
        rw [dget_dset_self]
      · have hcond : ¬(k ∈ key :: ks ∧ (dget pv k).isSome = true ∧ (dget dv k).isSome = true) := by
          rintro ⟨hmem, hpv, hdv⟩
          rcases List.mem_cons.1 hmem with rfl | hmem'
          · exact hkey ⟨rfl, hpv, hdv⟩
          · exact hks ⟨hmem', hpv, hdv⟩
        rw [if_neg hcond]
        rcases hpv : dget pv key with _ | x
        · simp only [hpv]
        · rcases hdv : dget dv key with _ | y
          · simp only [hpv, hdv]
          · simp only [hpv, hdv]
            by_cases hkk : k = key
            · subst hkk
              rw [dget_dset_self]
              exact absurd ⟨rfl, by simp [hpv], by simp [hdv]⟩ hkey
            · rw [dget_dset_ne _ _ _ _ hkk]

theorem mergeProgress_get (dv pv : Dict Value) (k : String) :
    dget (mergeProgress dv pv) k
      = if (dget pv k).isSome = true ∧ (dget dv k).isSome = true
        then dget pv k else dget dv k := by
  unfold mergeProgress
  rw [mergeProgress_fold_get]
  by_cases h : (dget pv k).isSome = true ∧ (dget dv k).isSome = true
  · rw [if_pos h, if_pos ⟨(mem_keysOf_iff_dget dv k).2 h.2, h⟩]
  · rw [if_neg h, if_neg (by rintro ⟨_, h2⟩; exact h h2)]

theorem mergeProgress_fold_keys (dv pv : Dict Value) (ks : List String) (acc : Dict Value)
    (h : ∀ key, (dget dv key).isSome = true → key ∈ keysOf acc) :
    keysOf (ks.foldl
      (fun prev key =>
        match dget pv key, dget dv key with
        | some x, some _ => dset prev key x
        | _, _ => prev)
      acc) = keysOf acc := by
  induction ks generalizing acc with
  | nil => rfl
  | cons key ks ih =>
    rw [List.foldl_cons]
    rcases hpv : dget pv key with _ | x
    · simp only [hpv]; exact ih acc h
    · rcases hdv : dget dv key with _ | y
      · simp only [hpv, hdv]; exact ih acc h
      · simp only [hpv, hdv]
        have hmem : key ∈ keysOf acc := h key (by simp [hdv])
        rw [ih (dset acc key x)
          (fun key2 h2 => by rw [keysOf_dset_of_mem acc key x hmem]; exact h key2 h2)]
        exact keysOf_dset_of_mem acc key x hmem

theorem mergeProgress_keys (dv pv : Dict Value) :
    keysOf (mergeProgress dv pv) = keysOf dv := by
  unfold mergeProgress
  exact mergeProgress_fold_keys dv pv _ dv (fun key h => (mem_keysOf_iff_dget dv key).2 h)

/-! ## reduceFields key lemmas -/

theorem mem_keysOf_foldl_dset {α : Type} (fields : List Field) (fn : Field → α)
    (acc : Dict α) (k : String) :
    k ∈ keysOf (fields.foldl (fun prev f => dset prev f.id (fn f)) acc)
      ↔ k ∈ keysOf acc ∨ k ∈ fields.map (fun f => f.id) := by
  induction fields generalizing acc with
  | nil => simp
  | cons f fields ih =>
    rw [List.foldl_cons, ih]
    rw [mem_keysOf_dset]
    simp only [List.map_cons, List.mem_cons]
    tauto

theorem mem_keysOf_reduceFields {α : Type} (form : ContentType) (fn : Field → α) (k : String) :
    k ∈ keysOf (reduceFields form fn) ↔ k ∈ fieldIds form := by
  unfold reduceFields fieldIds
  rw [mem_keysOf_foldl_dset]
  simp [keysOf_nil]

/-! ## Pagination lemmas -/

theorem pageIndexAux_ge (gs : List Group) (pid : Option String) :
    -1 ≤ pageIndexAux gs pid := by
  induction gs with
  | nil => simp [pageIndexAux]
  | cons g rest ih =>
    unfold pageIndexAux
    by_cases h : some g.id = pid
    · rw [if_pos h]; omega
    · rw [if_neg h]
      by_cases h2 : pageIndexAux rest pid < 0
      · simp only [if_pos h2]; omega
      · simp only [if_neg h2]; omega

theorem pageIndexAux_last (gs : List Group) (g : Group)
    (hnd : (gs.map (fun x => x.id)).Nodup) (hlast : gs.getLast? = some g) :
    pageIndexAux gs (some g.id) = (gs.length : Int) - 1 := by
  induction gs with
  | nil => simp at hlast
  | cons x rest ih =>
    cases rest with
    | nil =>
      simp only [List.getLast?_singleton, Option.some_inj] at hlast
      subst hlast
      simp [pageIndexAux]
    | cons y rest2 =>
      have hlast2 : (y :: rest2).getLast? = some g := by
        rwa [List.getLast?_cons_cons] at hlast
      have hgmem : g ∈ y :: rest2 := by
        obtain ⟨hne, hg2⟩ :=
          List.mem_getLast?_eq_getLast (l := y :: rest2) (x := g) (Option.mem_def.mpr hlast2)
        rw [hg2]
        exact List.getLast_mem hne
      have hnd2 : ((y :: rest2).map (fun x => x.id)).Nodup := (List.nodup_cons.1 hnd).2
      have hxid : x.id ∉ (y :: rest2).map (fun x => x.id) := (List.nodup_cons.1 hnd).1
      have hne : ¬(some x.id = some g.id) := by
        intro hh
        apply hxid
        rw [Option.some_inj] at hh
        rw [hh]
        exact List.mem_map_of_mem _ hgmem
      unfold pageIndexAux
      rw [if_neg hne, ih hnd2 hlast2]
      have hlen : 1 ≤ (y :: rest2).length := by simp
      have : ¬(((y :: rest2).length : Int) - 1 < 0) := by
        simp only [List.length_cons]
        omega
      rw [if_neg this]
      simp only [List.length_cons]
      push_cast
      ring

theorem nextPage_none_of_isLastPage (form : Option ContentType) (pid : Option String)
    (hnd : ((groupsOf form).map (fun g => g.id)).Nodup)
    (hl : getIsLastPage form pid = true) : getNextPage form pid = none := by
  unfold getIsLastPage at hl
  rcases hg : (groupsOf form).getLast? with _ | g
  · have hempty : groupsOf form = [] := by
      cases hgs : groupsOf form with
      | nil => rfl
      | cons a rest => rw [hgs] at hg; simp [List.getLast?_isSome] at hg
    unfold getNextPage getPageIndex
    rw [hempty]
    simp [pageIndexAux]
  · rw [hg] at hl
    simp only [decide_eq_true_eq] at hl
    subst hl
    unfold getNextPage getPageIndex
    rw [pageIndexAux_last (groupsOf form) g hnd hg]
    have hlen : 1 ≤ (groupsOf form).length := by
      cases hgs : groupsOf form with
      | nil => rw [hgs] at hg; simp at hg
      | cons a rest => simp
    rw [if_pos (by omega)]
    unfold getPageIdAt
    have : (((groupsOf form).length : Int) - 1).toNat + 1 = (groupsOf form).length := by omega
    rw [this]
    simp

/-! ## onSetForm projections -/

theorem onSetForm_value (env : Env) (sto : Storage) (state : FormState) (form : ContentType) :
    (onSetForm env sto state form).value
      = match loadProgress sto form with
        | some p => mergeProgress (getDefaultFormValue env form) p.value
        | none => getDefaultFormValue env form := by
  cases h : loadProgress sto form <;> simp [onSetForm, h]

theorem onSetForm_inputValue (env : Env) (sto : Storage) (state : FormState) (form : ContentType) :
    (onSetForm env sto state form).inputValue = (onSetForm env sto state form).value := by
  cases h : loadProgress sto form <;> simp [onSetForm, h]

theorem onSetForm_defaultValue (env : Env) (sto : Storage) (state : FormState)
    (form : ContentType) :
    (onSetForm env sto state form).defaultValue = getDefaultFormValue env form := rfl

theorem onSetForm_emptyValue (env : Env) (sto : Storage) (state : FormState)
    (form : ContentType) :
    (onSetForm env sto state form).emptyValue = getEmptyFormValue form := rfl

theorem onSetForm_form (env : Env) (sto : Storage) (state : FormState) (form : ContentType) :
    (onSetForm env sto state form).form = some form := rfl

theorem onSetForm_errors (env : Env) (sto : Storage) (state : FormState) (form : ContentType) :
    (onSetForm env sto state form).errors
      = reduceFields form
          (fun f => validate env (dget (onSetForm env sto state form).value f.id) f state.language) := by
  rw [onSetForm_value]
  cases h : loadProgress sto form <;> simp [onSetForm, h]

theorem onSetForm_currentPageId (env : Env) (sto : Storage) (state : FormState)
    (form : ContentType) :
    (onSetForm env sto state form).currentPageId
      = if errorsAny (onSetForm env sto state form).errors then getPageIdAt (some form) 0
        else
          match loadProgress sto form with
          | some p =>
            if (form.groups.getD []).any (fun g => decide (g.id = p.page)) then some p.page
            else getPageIdAt (some form) 0
          | none => getPageIdAt (some form) 0 := by
  rw [onSetForm_errors, onSetForm_value]
  cases h : loadProgress sto form <;> simp [onSetForm, h]

/-! ## Claim theorems -/

/-- Claim C1: for every FormState, Submit behaves as follows.  If the
current page has a field with validation errors, it reports not-saveable,
sets `showErrors`, and leaves the rest of the state (in particular
`currentPageId`) unchanged.  If the current page has no erroring field and
a next page exists (`nextPage` truthy: a group id is only a page id when it
is non-empty, the source testing `if (nextPage)`), it advances
`currentPageId` to that page with `showErrors` false and reports
not-saveable.  If the current page has no erroring field and is the last
page (group ids being distinct, per the schema invariant), it reports
saveable with `showErrors` false and the state otherwise unchanged. -/
theorem c1_submit (state : FormState) :
    (currentPageHasErrors state = true →
      onSubmit state = ⟨false, { state with showErrors := true }⟩)
    ∧ (∀ np, np ≠ "" → currentPageHasErrors state = false →
      getNextPage state.form state.currentPageId = some np →
      onSubmit state = ⟨false, { state with showErrors := false, currentPageId := some np }⟩)
    ∧ (currentPageHasErrors state = false →
      getIsLastPage state.form state.currentPageId = true →
      ((groupsOf state.form).map (fun g => g.id)).Nodup →
      onSubmit state = ⟨true, { state with showErrors := false }⟩) := by
  refine ⟨?_, ?_, ?_⟩
  · intro h
    simp [onSubmit, h]
  · intro np hne h hnp
    simp [onSubmit, h, hnp, truthyS, hne]
  · intro h hl hnd
    have hn := nextPage_none_of_isLastPage state.form state.currentPageId hnd hl
    simp [onSubmit, h, hn, truthyS, hl]

theorem c1_submit_witness :
    onSubmit stErr = ⟨false, { stErr with showErrors := true }⟩
    ∧ onSubmit stOk = ⟨false, { stOk with showErrors := false, currentPageId := some "p2" }⟩
    ∧ onSubmit stLast = ⟨true, { stLast with showErrors := false }⟩ :=
  ⟨(c1_submit stErr).1 (by decide),
   (c1_submit stOk).2.1 "p2" (by decide) (by decide) (by decide),
   (c1_submit stLast).2.2 (by decide) (by decide) (by decide)⟩

/-- Claim C2 (refuted by the code, supporting the code-bug verdict): the
source's resolution callbacks run `loadingPromise = null` unconditionally,
so while a superseded load's resolution does leave the FormState unchanged
(first conjunct), it clears the last-issued marker, and the most recently
issued load's own resolution — arriving afterwards — is then also
discarded: after `start 1; start 2; resolve 1; resolve 2`, no form is
loaded and `loading` is still true, where the claim requires load 2's form
to have been applied. -/
theorem c2_lost_resolution :
    (loadStep env0 sto0 (loadRun env0 sto0 ls0 [.startAsync 1, .startAsync 2])
        (.resolve 1 formA)).fs
      = (loadRun env0 sto0 ls0 [.startAsync 1, .startAsync 2]).fs
    ∧ (loadRun env0 sto0 ls0
        [.startAsync 1, .startAsync 2, .resolve 1 formA, .resolve 2 formB]).fs.form = none
    ∧ (loadRun env0 sto0 ls0
        [.startAsync 1, .startAsync 2, .resolve 1 formA, .resolve 2 formB]).fs.loading = true := by
  refine ⟨by decide, by decide, by decide⟩

/-- Claim C6, counterexample: the claim says the focus setter silently
ignores field ids that are not among the loaded form's fields, but
`onSetFocussed` records the given id without checking it: focusing the
unknown id `"ghost"` changes the state. -/
theorem c6_counterexample :
    ((stOk.form.map (fun f => f.fields)).getD []).all (fun f => decide (f.id ≠ "ghost")) = true
    ∧ onSetFocussed stOk "ghost" true ≠ stOk := by
  decide

/-- Claim C6 as amended: for a field id not among the loaded form's fields,
the value setter and the input-value setter leave the state unchanged
(silently, no error raised); the focus setter does not check field
existence — focusing records the given id regardless, and blurring is a
no-op unless that id is the currently focussed one. -/
theorem c6_unknown_field_setters (env : Env) (state : FormState) (fieldId : String) (v : Value)
    (h : ((state.form.map (fun f => f.fields)).getD []).all
        (fun f => decide (f.id ≠ fieldId)) = true) :
    onSetValue env state fieldId v = state
    ∧ onSetInputValue state fieldId v = state
    ∧ onSetFocussed state fieldId true = { state with focussed := some fieldId }
    ∧ (state.focussed ≠ some fieldId → onSetFocussed state fieldId false = state) := by
  have hfind : ((state.form.map (fun f => f.fields)).getD []).find?
      (fun f => decide (f.id = fieldId)) = none := by
    rw [List.find?_eq_none]
    intro f hf
    simp only [List.all_eq_true, decide_eq_true_eq] at h
    simp only [decide_eq_true_eq]
    exact h f hf
  refine ⟨?_, ?_, ?_, ?_⟩
  · simp [onSetValue, hfind]
  · simp [onSetInputValue, hfind]
  · simp [onSetFocussed]
  · intro hf
    simp [onSetFocussed, hf]

theorem c6_unknown_field_setters_witness :
    onSetValue env0 stOk "ghost" (Value.str "q") = stOk
    ∧ onSetInputValue stOk "ghost" (Value.str "q") = stOk
    ∧ onSetFocussed stOk "ghost" true = { stOk with focussed := some "ghost" }
    ∧ onSetFocussed stOk "ghost" false = stOk := by
  have h := c6_unknown_field_setters env0 stOk "ghost" (Value.str "q") (by decide)
  exact ⟨h.1, h.2.1, h.2.2.1, h.2.2.2 (by decide)⟩

/-- Claim C9: SetInputValue changes at most the `inputValue` entry for the
given field id — the whole state apart from `inputValue` is unchanged (in
particular `value`, `errors` and `currentPageId`; no validation runs), and
every `inputValue` entry for a different key is preserved. -/
theorem c9_input_frame (state : FormState) (fieldId : String) (v : Value) :
    onSetInputValue state fieldId v
      = { state with inputValue := (onSetInputValue state fieldId v).inputValue }
    ∧ (onSetInputValue state fieldId v).value = state.value
    ∧ (onSetInputValue state fieldId v).errors = state.errors
    ∧ (onSetInputValue state fieldId v).currentPageId = state.currentPageId
    ∧ (∀ k, k ≠ fieldId →
        dget (onSetInputValue state fieldId v).inputValue k = dget state.inputValue k) := by
  unfold onSetInputValue
  cases hfind : ((state.form.map (fun f => f.fields)).getD []).find?
      (fun f => decide (f.id = fieldId)) with
  | none =>
    simp [hfind]
  | some f =>
    simp only [hfind]
    refine ⟨trivial, trivial, trivial, trivial, ?_⟩
    intro k hk
    exact dget_dset_ne _ _ _ _ hk

theorem c9_input_frame_witness :
    (onSetInputValue stOk "a" (Value.str "q")).value = stOk.value
    ∧ (onSetInputValue stOk "a" (Value.str "q")).errors = stOk.errors
    ∧ (onSetInputValue stOk "a" (Value.str "q")).currentPageId = stOk.currentPageId
    ∧ dget (onSetInputValue stOk "a" (Value.str "q")).inputValue "b" = dget stOk.inputValue "b" := by
  have h := c9_input_frame stOk "a" (Value.str "q")
  exact ⟨h.2.1, h.2.2.1, h.2.2.2.1, h.2.2.2.2 "b" (by decide)⟩

/-- Claim C5: for every state and a valid (non-empty) target page id,
GotoPage forward (target index strictly greater than the current page's)
navigates only when the current page has no errors and the target is
exactly the immediate next page; with errors it leaves `currentPageId`
unchanged and sets `showErrors`; forward beyond the immediate next page is
a no-op even when valid; a target with index strictly below the current one
navigates unconditionally with `showErrors` false; an equal or unresolved
(-1) target index is a no-op. -/
theorem c5_goto_page (state : FormState) (pageId : String) (trigger : Trigger)
    (hp : pageId ≠ "") :
    (getPageIndex state.form state.currentPageId < getPageIndex state.form (some pageId) →
      currentPageHasErrors state = true →
      onGotoPage state pageId trigger = { state with showErrors := true })
    ∧ (getPageIndex state.form state.currentPageId < getPageIndex state.form (some pageId) →
      currentPageHasErrors state = false →
      getNextPage state.form state.currentPageId ≠ some pageId →
      onGotoPage state pageId trigger = state)
    ∧ (getPageIndex state.form state.currentPageId < getPageIndex state.form (some pageId) →
      currentPageHasErrors state = false →
      getNextPage state.form state.currentPageId = some pageId →
      onGotoPage state pageId trigger
        = { state with showErrors := false, currentPageId := some pageId })
    ∧ (getPageIndex state.form (some pageId) < getPageIndex state.form state.currentPageId →
      0 ≤ getPageIndex state.form (some pageId) →
      onGotoPage state pageId trigger
        = { state with showErrors := false, currentPageId := some pageId })
    ∧ (getPageIndex state.form (some pageId) = getPageIndex state.form state.currentPageId →
      onGotoPage state pageId trigger = state)
    ∧ (getPageIndex state.form (some pageId) < 0 →
      onGotoPage state pageId trigger = state) := by
  have hci : -1 ≤ getPageIndex state.form state.currentPageId :=
    pageIndexAux_ge (groupsOf state.form) state.currentPageId
  refine ⟨?_, ?_, ?_, ?_, ?_, ?_⟩
  · intro hlt herr
    have hni : 0 ≤ getPageIndex state.form (some pageId) := by omega
    simp [onGotoPage, hp, hni, hlt, herr]
  · intro hlt herr hne
    have hni : 0 ≤ getPageIndex state.form (some pageId) := by omega
    cases hnp : getNextPage state.form state.currentPageId with
    | none => simp [onGotoPage, hp, hni, hlt, herr, hnp]
    | some np =>
      have hne2 : ¬(np = pageId) := fun hh => hne (by rw [hnp, hh])
      simp [onGotoPage, hp, hni, hlt, herr, hnp, hne2]
  · intro hlt herr hnp
    have hni : 0 ≤ getPageIndex state.form (some pageId) := by omega
    simp [onGotoPage, hp, hni, hlt, herr, hnp]
  · intro hlt hni
    have hnlt : ¬(getPageIndex state.form state.currentPageId
        < getPageIndex state.form (some pageId)) := by omega
    simp [onGotoPage, hp, hni, hlt, hnlt]
  · intro heq
    by_cases hni : 0 ≤ getPageIndex state.form (some pageId)
    · have h1 : ¬(getPageIndex state.form state.currentPageId
          < getPageIndex state.form (some pageId)) := by omega
      have h2 : ¬(getPageIndex state.form (some pageId)
          < getPageIndex state.form state.currentPageId) := by omega
      simp [onGotoPage, hp, hni, h1, h2]
    · simp [onGotoPage, hp, hni]
  · intro hneg
    have hni : ¬(0 ≤ getPageIndex state.form (some pageId)) := by omega
    simp [onGotoPage, hp, hni]

theorem c5_goto_page_witness :
    onGotoPage st3e "p3" Trigger.user = { st3e with showErrors := true }
    ∧ onGotoPage st3 "p3" Trigger.user = st3
    ∧ onGotoPage st3 "p2" Trigger.user
        = { st3 with showErrors := false, currentPageId := some "p2" }
    ∧ onGotoPage stLast "p1" Trigger.popstate
        = { stLast with showErrors := false, currentPageId := some "p1" }
    ∧ onGotoPage st3 "p1" Trigger.user = st3
    ∧ onGotoPage st3 "nosuch" Trigger.user = st3 :=
  ⟨(c5_goto_page st3e "p3" Trigger.user (by decide)).1 (by decide) (by decide),
   (c5_goto_page st3 "p3" Trigger.user (by decide)).2.1 (by decide) (by decide) (by decide),
   (c5_goto_page st3 "p2" Trigger.user (by decide)).2.2.1 (by decide) (by decide) (by decide),
   (c5_goto_page stLast "p1" Trigger.popstate (by decide)).2.2.2.1 (by decide) (by decide),
   (c5_goto_page st3 "p1" Trigger.user (by decide)).2.2.2.2.1 (by decide),
   (c5_goto_page st3 "nosuch" Trigger.user (by decide)).2.2.2.2.2 (by decide)⟩

/-- Claim C8: default value resolution.  An explicit default other than the
sentinel string `"now()"` is returned unchanged; a missing default yields
the field's empty value; the sentinel on a `dateTime` field yields the
current local date `YYYY-MM-DDT00:00` when the resolved editor type is
`date` and the current local date-time `YYYY-MM-DDThh:mm` when it is
`datetime`; the sentinel on a `string` field with data format `time` yields
the current local time `hh:mm` — all zero-padded local wall-clock values
(see `toLocalIsoDate`, `toLocalIsoDateTime`, `toLocalIsoTime`, `pad`). -/
theorem c8_default_value (now : DateParts) (f : Field) (d : Value) :
    (f.default = some d → d ≠ Value.str "now()" → getDefaultValue now f = d)
    ∧ (f.default = none → getDefaultValue now f = getEmptyFieldValue f)
    ∧ (f.dataType = FieldDataType.dateTime → f.default = some (Value.str "now()") →
      getFieldEditorType f = FieldEditorType.date →
      getDefaultValue now f = Value.str (toLocalIsoDate now))
    ∧ (f.dataType = FieldDataType.dateTime → f.default = some (Value.str "now()") →
      getFieldEditorType f = FieldEditorType.datetime →
      getDefaultValue now f = Value.str (toLocalIsoDateTime now))
    ∧ (f.dataType = FieldDataType.string → f.dataFormat = some FieldDataFormat.time →
      f.default = some (Value.str "now()") →
      getDefaultValue now f = Value.str (toLocalIsoTime now)) := by
  refine ⟨?_, ?_, ?_, ?_, ?_⟩
  · intro hd hne
    unfold getDefaultValue
    rw [hd]
    simp only []
    rw [if_neg (by rintro ⟨_, h⟩; exact hne h), if_neg (by rintro ⟨_, _, h⟩; exact hne h)]
  · intro hd
    unfold getDefaultValue
    rw [hd]
    simp only []
    have hne : getEmptyFieldValue f ≠ Value.str "now()" := by
      unfold getEmptyFieldValue
      cases f.dataType <;> simp
    rw [if_neg (by rintro ⟨_, h⟩; exact hne h), if_neg (by rintro ⟨_, _, h⟩; exact hne h)]
  · intro ht hd hed
    unfold getDefaultValue
    rw [hd]
    simp only []
    rw [if_pos ⟨ht, trivial⟩, if_neg (by rw [hed]; simp)]
  · intro ht hd hed
    unfold getDefaultValue
    rw [hd]
    simp only []
    rw [if_pos ⟨ht, trivial⟩, if_pos hed]
  · intro ht hf hd
    unfold getDefaultValue
    rw [hd]
    simp only []
    rw [if_neg (by rintro ⟨h, _⟩; rw [ht] at h; exact absurd h (by simp)),
      if_pos ⟨ht, hf, trivial⟩]

theorem c8_default_value_witness :
    getDefaultValue now0 fInt5 = Value.num 5
    ∧ getDefaultValue now0 fDecNo = Value.null
    ∧ getDefaultValue now0 fDateNow = Value.str "2024-05-07T00:00"
    ∧ getDefaultValue now0 fDateTimeNow = Value.str "2024-05-07T09:05"
    ∧ getDefaultValue now0 fTimeNow = Value.str "09:05" := by
  refine ⟨?_, ?_, ?_, ?_, ?_⟩
  · exact (c8_default_value now0 fInt5 (Value.num 5)).1 rfl (by decide)
  · exact (c8_default_value now0 fDecNo Value.null).2.1 rfl
  · rw [(c8_default_value now0 fDateNow Value.null).2.2.1 rfl rfl (by decide)]
    decide
  · rw [(c8_default_value now0 fDateTimeNow Value.null).2.2.2.1 rfl rfl (by decide)]
    decide
  · rw [(c8_default_value now0 fTimeNow Value.null).2.2.2.2 rfl rfl rfl]
    decide

theorem find_no_empty_option (hId : String) (ps : List (String × String))
    (hall : ps.all (fun p => decide (p.1 ≠ "")) = true) :
    (ps.enum.map (optionOf hId)).find? (fun o => decide (o.value = "")) = none := by
  rw [List.find?_eq_none]
  intro o ho
  obtain ⟨x, hx, rfl⟩ := List.mem_map.1 ho
  have hg : ps.get? x.1 = some x.2 := List.mem_enum_iff_get?.1 hx
  obtain ⟨hlt, hget⟩ := List.get?_eq_some.1 hg
  simp only [List.all_eq_true, decide_eq_true_eq] at hall
  have hmem : x.2 ∈ ps := by
    rw [← hget]
    exact List.get_mem ps x.1 hlt
  simp only [optionOf, decide_eq_true_eq]
  exact hall x.2 hmem

theorem find_empty_option_isSome (hId : String) (ps : List (String × String))
    (hany : ps.any (fun p => decide (p.1 = "")) = true) :
    ((ps.enum.map (optionOf hId)).find? (fun o => decide (o.value = ""))).isSome = true := by
  rw [List.find?_isSome]
  obtain ⟨p, hp, hpe⟩ := List.any_eq_true.1 hany
  obtain ⟨i, hi, rfl⟩ := List.mem_iff_getElem.1 hp
  refine ⟨optionOf hId (i, ps[i]), List.mem_map_of_mem _ ?_, by simpa [optionOf] using hpe⟩
  rw [List.mem_enum_iff_get?]
  simp [List.get?_eq_getElem?, hi]

/-- Claim C10: for a field whose resolved editor type is `select`,
`getOptions` prepends a synthetic empty option (value `''`, placeholder
label) unless an option with value `''` already exists among the allowed
values; in particular a select field with no allowed-values constraint
yields the one-element list holding only the synthetic option (not an
absent list).  For non-select fields the result is exactly the enumerated
pair list in order, where the pairs prefer `labeledValues` over `values`
and bare values are paired with themselves as the label. -/
theorem c10_options (f : Field) (hid : String) :
    (getFieldEditorType f = FieldEditorType.select →
      ((optionPairs f).getD []).all (fun p => decide (p.1 ≠ "")) = true →
      getOptions f hid
        = some (emptySelectOption f hid :: ((optionPairs f).getD []).enum.map (optionOf hid)))
    ∧ (getFieldEditorType f = FieldEditorType.select → optionPairs f = none →
      getOptions f hid = some [emptySelectOption f hid])
    ∧ (∀ ps, getFieldEditorType f = FieldEditorType.select → optionPairs f = some ps →
      ps.any (fun p => decide (p.1 = "")) = true →
      getOptions f hid = some (ps.enum.map (optionOf hid)))
    ∧ (∀ ps, getFieldEditorType f ≠ FieldEditorType.select → optionPairs f = some ps →
      getOptions f hid = some (ps.enum.map (optionOf hid)))
    ∧ (getFieldEditorType f ≠ FieldEditorType.select → optionPairs f = none →
      getOptions f hid = none)
    ∧ (∀ av lvs, f.validations.bind (fun v => v.allowedValues) = some av →
      av.labeledValues = some lvs → optionPairs f = some lvs)
    ∧ (∀ av vs, f.validations.bind (fun v => v.allowedValues) = some av →
      av.labeledValues = none → av.values = some vs →
      optionPairs f = some (vs.map (fun v => (v, v)))) := by
  refine ⟨?_, ?_, ?_, ?_, ?_, ?_, ?_⟩
  · intro hsel hall
    cases hps : optionPairs f with
    | none => simp [getOptions, hsel, hps, List.find?]
    | some ps =>
      rw [hps] at hall
      simp only [Option.getD_some] at hall
      have hfind := find_no_empty_option hid ps hall
      simp [getOptions, hsel, hps, hfind]
  · intro hsel hpn
    simp [getOptions, hsel, hpn, List.find?]
  · intro ps hsel hps hany
    have hs := find_empty_option_isSome hid ps hany
    cases hfind : (ps.enum.map (optionOf hid)).find? (fun o => decide (o.value = "")) with
    | none => rw [hfind] at hs; simp at hs
    | some o => simp [getOptions, hsel, hps, hfind]
  · intro ps hns hps
    simp [getOptions, hns, hps]
  · intro hns hpn
    simp [getOptions, hns, hpn]
  · intro av lvs hav hlv
    simp [optionPairs, hav, hlv]
  · intro av vs hav hlv hvs
    simp [optionPairs, hav, hlv, hvs]

theorem c10_options_witness :
    getOptions fSelect "x"
      = some [emptySelectOption fSelect "x", optionOf "x" (0, ("v1", "Label 1"))]
    ∧ getOptions fSelectNoAV "x" = some [emptySelectOption fSelectNoAV "x"]
    ∧ getOptions fSelectEmptyVal "x"
      = some [optionOf "x" (0, ("", "None")), optionOf "x" (1, ("v1", "L"))]
    ∧ getOptions fRadioVals "x"
      = some [optionOf "x" (0, ("x", "x")), optionOf "x" (1, ("y", "y"))] := by
  refine ⟨?_, ?_, ?_, ?_⟩
  · rw [(c10_options fSelect "x").1 (by decide) (by decide)]
    decide
  · exact (c10_options fSelectNoAV "x").2.1 (by decide) (by decide)
  · rw [(c10_options fSelectEmptyVal "x").2.2.1 [("", "None"), ("v1", "L")]
      (by decide) (by decide) (by decide)]
    decide
  · rw [(c10_options fRadioVals "x").2.2.2.1 [("x", "x"), ("y", "y")] (by decide) (by decide)]
    decide

/-- Claim C3: round-trip of the draft persistence.  For a draft written by
`saveProgress` from a prior state (with a loaded form of the same non-empty
id — `saveProgress` is guarded by `if (state.form?.id)` — and a non-empty
current page id), `onSetForm` reconstructs the prior committed value for
every field id defined in both the draft's value mapping and the freshly
computed default value map, yields the default value for every field id
absent from the draft, has exactly the default map's keys (so draft keys
that reference fields not in the current form are dropped), and is absent
at every key outside the default map. -/
theorem c3_roundtrip (env : Env) (sto : Storage) (prev state : FormState)
    (pf form : ContentType) (pid : String)
    (hform : prev.form = some pf) (hid : pf.id = form.id) (hpfid : pf.id ≠ "")
    (hpage : prev.currentPageId = some pid) (hpid : pid ≠ "") :
    (∀ k, (dget prev.value k).isSome = true →
      (dget (getDefaultFormValue env form) k).isSome = true →
      dget (onSetForm env (saveProgress prev sto) state form).value k = dget prev.value k)
    ∧ (∀ k, dget prev.value k = none →
      dget (onSetForm env (saveProgress prev sto) state form).value k
        = dget (getDefaultFormValue env form) k)
    ∧ keysOf (onSetForm env (saveProgress prev sto) state form).value
        = keysOf (getDefaultFormValue env form)
    ∧ (∀ k, dget (getDefaultFormValue env form) k = none →
      dget (onSetForm env (saveProgress prev sto) state form).value k = none) := by
  have hload : loadProgress (saveProgress prev sto) form = some ⟨pid, prev.value⟩ := by
    unfold saveProgress
    rw [hform]
    simp only [if_neg hpfid]
    unfold loadProgress
    simp only [if_pos hid.symm, hpage, Option.getD_some]
    rw [if_neg hpid]
  have hval : (onSetForm env (saveProgress prev sto) state form).value
      = mergeProgress (getDefaultFormValue env form) prev.value := by
    rw [onSetForm_value, hload]
  refine ⟨?_, ?_, ?_, ?_⟩
  · intro k h1 h2
    rw [hval, mergeProgress_get, if_pos ⟨h1, h2⟩]
  · intro k h1
    rw [hval, mergeProgress_get,
      if_neg (by rintro ⟨ha, _⟩; rw [h1] at ha; simp at ha)]
  · rw [hval]
    exact mergeProgress_keys _ _
  · intro k h1
    rw [hval, mergeProgress_get,
      if_neg (by rintro ⟨_, hb⟩; rw [h1] at hb; simp at hb), h1]

theorem c3_roundtrip_witness :
    dget (onSetForm env0 (saveProgress stOk sto0) (initialState "h" "en" "t") form2).value "a"
      = dget stOk.value "a"
    ∧ keysOf (onSetForm env0 (saveProgress stOk sto0) (initialState "h" "en" "t") form2).value
      = keysOf (getDefaultFormValue env0 form2)
    ∧ dget (onSetForm env0 (saveProgress stOk sto0) (initialState "h" "en" "t") form2).value "zzz"
      = none := by
  have h := c3_roundtrip env0 sto0 stOk (initialState "h" "en" "t") form2 form2 "p1"
    (by decide) rfl (by decide) (by decide) (by decide)
  exact ⟨h.1 "a" (by decide) (by decide), h.2.2.1, h.2.2.2 "zzz" (by decide)⟩

/-- Claim C4: page selection in `onSetForm`.  With no loadable draft, the
form's first page is used.  With a draft: if any field fails validation
against the merged value, the current page is forced back to the first page
regardless of the draft; otherwise the draft's page id is adopted exactly
when it matches an existing group id, and the first page is kept when it
does not. -/
theorem c4_page_selection (env : Env) (sto : Storage) (state : FormState) (form : ContentType) :
    (loadProgress sto form = none →
      (onSetForm env sto state form).currentPageId = getPageIdAt (some form) 0)
    ∧ (∀ p, loadProgress sto form = some p →
      errorsAny (onSetForm env sto state form).errors = true →
      (onSetForm env sto state form).currentPageId = getPageIdAt (some form) 0)
    ∧ (∀ p, loadProgress sto form = some p →
      errorsAny (onSetForm env sto state form).errors = false →
      (onSetForm env sto state form).currentPageId
        = if (form.groups.getD []).any (fun g => decide (g.id = p.page)) then some p.page
          else getPageIdAt (some form) 0) := by
  refine ⟨?_, ?_, ?_⟩
  · intro hpn
    rw [onSetForm_currentPageId, hpn]
    by_cases he : errorsAny (onSetForm env sto state form).errors = true
    · simp [he]
    · simp only [Bool.not_eq_true] at he
      simp [he]
  · intro p hp he
    rw [onSetForm_currentPageId, he]
    simp
  · intro p hp he
    rw [onSetForm_currentPageId, hp, he]
    simp

theorem c4_page_selection_witness :
    (onSetForm env0 stoDraftErr (initialState "h" "en" "t") form2).currentPageId = some "p1"
    ∧ (onSetForm env0 stoDraftOk (initialState "h" "en" "t") form2).currentPageId = some "p2"
    ∧ (onSetForm env0 sto0 (initialState "h" "en" "t") form2).currentPageId = some "p1" := by
  refine ⟨?_, ?_, ?_⟩
  · rw [(c4_page_selection env0 stoDraftErr (initialState "h" "en" "t") form2).2.1
      ⟨"p2", [("a", Value.str "")]⟩ (by decide) (by decide)]
    decide
  · rw [(c4_page_selection env0 stoDraftOk (initialState "h" "en" "t") form2).2.2
      ⟨"p2", [("a", Value.str "x")]⟩ (by decide) (by decide)]
    decide
  · rw [(c4_page_selection env0 sto0 (initialState "h" "en" "t") form2).1 (by decide)]
    decide

theorem keyInv_onSetForm (env : Env) (sto : Storage) (state : FormState) (form : ContentType) :
    keyInv (onSetForm env sto state form) form = true := by
  have hdv : ∀ k, k ∈ keysOf (getDefaultFormValue env form) ↔ k ∈ fieldIds form :=
    fun k => mem_keysOf_reduceFields form _ k
  have hval : ∀ k, k ∈ keysOf (onSetForm env sto state form).value ↔ k ∈ fieldIds form := by
    intro k
    rw [onSetForm_value]
    cases hp : loadProgress sto form with
    | none => exact hdv k
    | some p =>
      simp only []
      rw [mergeProgress_keys]
      exact hdv k
  unfold keyInv
  simp only [Bool.and_eq_true]
  refine ⟨⟨⟨⟨?_, ?_⟩, ?_⟩, ?_⟩, ?_⟩
  · exact sameKeys_of_mem_iff _ _ hval
  · rw [onSetForm_defaultValue]
    exact sameKeys_of_mem_iff _ _ hdv
  · rw [onSetForm_emptyValue]
    exact sameKeys_of_mem_iff _ _ (fun k => mem_keysOf_reduceFields form _ k)
  · rw [onSetForm_inputValue]
    exact sameKeys_of_mem_iff _ _ hval
  · rw [onSetForm_errors]
    exact sameKeys_of_mem_iff _ _ (fun k => mem_keysOf_reduceFields form _ k)

theorem fieldId_mem_of_find (state : FormState) (form : ContentType) (fieldId : String)
    (field : Field) (hsf : state.form = some form)
    (hfind : ((state.form.map (fun f => f.fields)).getD []).find?
      (fun f => decide (f.id = fieldId)) = some field) :
    fieldId ∈ fieldIds form := by
  have hfid : field.id = fieldId := by
    have := List.find?_some hfind
    simpa using this
  have hmem : field ∈ (state.form.map (fun f => f.fields)).getD [] :=
    List.mem_of_find?_eq_some hfind
  rw [hsf] at hmem
  simp only [Option.map_some', Option.getD_some] at hmem
  rw [← hfid]
  exact List.mem_map_of_mem _ hmem

theorem keyInv_onSetValue (env : Env) (state : FormState) (form : ContentType)
    (fieldId : String) (v : Value) (hsf : state.form = some form)
    (h : keyInv state form = true) : keyInv (onSetValue env state fieldId v) form = true := by
  unfold onSetValue
  cases hfind : ((state.form.map (fun f => f.fields)).getD []).find?
      (fun f => decide (f.id = fieldId)) with
  | none =>
    simp only [hfind]
    exact h
  | some field =>
    simp only [hfind]
    have hids := fieldId_mem_of_find state form fieldId field hsf hfind
    unfold keyInv at h ⊢
    simp only [Bool.and_eq_true] at h ⊢
    obtain ⟨⟨⟨⟨h1, h2⟩, h3⟩, h4⟩, h5⟩ := h
    exact ⟨⟨⟨⟨sameKeys_dset _ _ _ _ h1 hids, h2⟩, h3⟩, h4⟩,
      sameKeys_dset _ _ _ _ h5 hids⟩

theorem keyInv_onSetInputValue (state : FormState) (form : ContentType)
    (fieldId : String) (v : Value) (hsf : state.form = some form)
    (h : keyInv state form = true) : keyInv (onSetInputValue state fieldId v) form = true := by
  unfold onSetInputValue
  cases hfind : ((state.form.map (fun f => f.fields)).getD []).find?
      (fun f => decide (f.id = fieldId)) with
  | none =>
    simp only [hfind]
    exact h
  | some field =>
    simp only [hfind]
    have hids := fieldId_mem_of_find state form fieldId field hsf hfind
    unfold keyInv at h ⊢
    simp only [Bool.and_eq_true] at h ⊢
    obtain ⟨⟨⟨⟨h1, h2⟩, h3⟩, h4⟩, h5⟩ := h
    exact ⟨⟨⟨⟨h1, h2⟩, h3⟩, sameKeys_dset _ _ _ _ h4 hids⟩, h5⟩

theorem keyInv_onSetFocussed (state : FormState) (form : ContentType)
    (fieldId : String) (b : Bool)
    (h : keyInv state form = true) : keyInv (onSetFocussed state fieldId b) form = true := by
  unfold onSetFocussed
  split
  · exact h
  · split
    · exact h
    · exact h

theorem keyInv_onSubmit (state : FormState) (form : ContentType)
    (h : keyInv state form = true) : keyInv (onSubmit state).state form = true := by
  unfold onSubmit
  split
  · dsimp only
    split
    · exact h
    · split
      · exact h
      · exact h
  · exact h

theorem keyInv_onPreviousPage (state : FormState) (form : ContentType)
    (h : keyInv state form = true) : keyInv (onPreviousPage state) form = true := by
  unfold onPreviousPage
  dsimp only
  split
  · exact h
  · exact h

theorem keyInv_onGotoPage (state : FormState) (form : ContentType)
    (pageId : String) (trigger : Trigger)
    (h : keyInv state form = true) : keyInv (onGotoPage state pageId trigger) form = true := by
  simp only [onGotoPage]
  repeat' split
  all_goals exact h

/-- Claim C7: once a form is loaded via `onSetForm`, the dictionaries
`value`, `defaultValue`, `emptyValue`, `inputValue` and `errors` all have
exactly the loaded form's field ids as their key set, and every transition
(SetValue, SetInputValue, SetFocussed, Submit, PreviousPage, GotoPage)
preserves this key set. -/
theorem c7_keyset (env : Env) (sto : Storage) (form : ContentType) :
    (∀ state, keyInv (onSetForm env sto state form) form = true)
    ∧ (∀ state fieldId v, state.form = some form → keyInv state form = true →
        keyInv (onSetValue env state fieldId v) form = true)
    ∧ (∀ state fieldId v, state.form = some form → keyInv state form = true →
        keyInv (onSetInputValue state fieldId v) form = true)
    ∧ (∀ state fieldId b, keyInv state form = true →
        keyInv (onSetFocussed state fieldId b) form = true)
    ∧ (∀ state, keyInv state form = true → keyInv (onSubmit state).state form = true)
    ∧ (∀ state, keyInv state form = true → keyInv (onPreviousPage state) form = true)
    ∧ (∀ state pageId trigger, keyInv state form = true →
        keyInv (onGotoPage state pageId trigger) form = true) :=
  ⟨fun state => keyInv_onSetForm env sto state form,
   fun state fieldId v hsf h => keyInv_onSetValue env state form fieldId v hsf h,
   fun state fieldId v hsf h => keyInv_onSetInputValue state form fieldId v hsf h,
   fun state fieldId b h => keyInv_onSetFocussed state form fieldId b h,
   fun state h => keyInv_onSubmit state form h,
   fun state h => keyInv_onPreviousPage state form h,
   fun state pageId trigger h => keyInv_onGotoPage state form pageId trigger h⟩

theorem c7_keyset_witness :
    keyInv (onSetForm env0 sto0 (initialState "h" "en" "t") form2) form2 = true
    ∧ keyInv (onSetValue env0 stOk "a" (Value.str "z")) form2 = true
    ∧ keyInv (onSubmit stOk).state form2 = true :=
  ⟨(c7_keyset env0 sto0 form2).1 (initialState "h" "en" "t"),
   (c7_keyset env0 sto0 form2).2.1 stOk "a" (Value.str "z") (by decide) (by decide),
   (c7_keyset env0 sto0 form2).2.2.2.2.1 stOk (by decide)⟩

end ContensisForms
